import Mathlib

/-
Verification of the data_industry_insights pipeline.

Shallow embedding of:
  * the salary-validation stage
    (src/pipeline/step2_processing/2.7_validating_salary_exp.py),
  * the pipeline orchestrator's status machinery
    (src/app/pages/p1_pipeline.py),
  * the city-alias resolution of the values-normalization stage
    (src/pipeline/step2_processing/2.3_normalizing_values.py),
  * the role-name standardization matcher
    (src/pipeline/step2_processing/2.6_standardizing_role_name.py),
  * the schema mapper's remote-flag export
    (src/pipeline/tools/s2_0_column_mapper_app.py).

Machine floats of the source are modelled by rationals; a CSV cell is
modelled by what Python's float() does to it (parses, or raises).
-/

namespace Salary

/-
Embedding of 2.7_validating_salary_exp.py.

A raw min_salary/max_salary cell, as seen by the row loop of
process_file: the exact marker string "__NA__", a numeric-like cell
that float() parses (value q), or any other cell on which float()
raises (covers "__INVALID__", free text; a float NaN cell reaches the
same Invalid outcome in the source through the unit-selection failure).
-/
inductive RawVal
  | na
  | num (q : ℚ)
  | junk
  deriving DecidableEq

/-- A min_salary/max_salary field after the stage ran: the "__NA__"
marker, the "__INVALID__" marker, or a numeric yearly value. -/
inductive Field
  | na
  | invalid
  | num (q : ℚ)
  deriving DecidableEq

/-- UNIT_RANGES keys, in dict insertion order (Python 3.7+ preserves it). -/
inductive SalaryUnit
  | hour
  | week
  | month
  | year
  deriving DecidableEq

/-- UNIT_RANGES (2.7_validating_salary_exp.py lines 103-108). -/
def UNIT_RANGES : SalaryUnit → ℚ × ℚ
  | .hour => (15, 250)
  | .week => (400, 8000)
  | .month => (1500, 40000)
  | .year => (20000, 500000)

/-- UNIT_MULTIPLIER (lines 110-115). -/
def UNIT_MULTIPLIER : SalaryUnit → ℚ
  | .hour => 2080
  | .week => 52
  | .month => 12
  | .year => 1

def YEARLY_MIN : ℚ := 20000

def YEARLY_MAX : ℚ := 500000

/-- Iteration order of the UNIT_RANGES dict. -/
def unitOrder : List SalaryUnit := [.hour, .week, .month, .year]

/-- NA_VALUES strings compared against str(x).strip() (line 120). -/
def NA_STRINGS : List String := ["__NA__", ""]

/-- ASCII whitespace, as stripped by Python's str.strip(). -/
def isSpaceChar (c : Char) : Bool := c == ' ' || c == '\t' || c == '\n' || c == '\r'

def stripChars (l : List Char) : List Char :=
  ((l.dropWhile isSpaceChar).reverse.dropWhile isSpaceChar).reverse

/-- Python's str.strip(). -/
def strip (s : String) : String := ⟨stripChars s.toList⟩

/-- to_usd (lines 137-146).  The currency is None (missing) or a string;
fx is the loaded currency_rates table. -/
def to_usd (v : RawVal) (currency : Option String) (fx : String → Option ℚ) :
    Option ℚ :=
  match v with
  | .na => none
  | .junk => none
  | .num x =>
    match currency with
    | none => some x
    | some c =>
      if NA_STRINGS.contains (strip c) then some x
      else
        match fx c with
        | some r => some (x * r)
        | none => some x

/-- interval_intersects (lines 149-150): not (a_max < b_min or a_min > b_max). -/
def interval_intersects (aMin aMax bMin bMax : ℚ) : Bool :=
  !(decide (aMax < bMin) || decide (aMin > bMax))

/-- Python's round() rounds half to even. -/
def roundHalfEven (q : ℚ) : ℤ :=
  let f := ⌊q⌋
  let r := q - f
  if r < 1 / 2 then f
  else if 1 / 2 < r then f + 1
  else if f % 2 = 0 then f
  else f + 1

/-- round(x, 2) of the source. -/
def round2 (q : ℚ) : ℚ := (roundHalfEven (q * 100) : ℚ) / 100

/-- Lines 209-257 of process_file: unit inference, yearly
canonicalization and the final containment check, applied to the two
positive USD values of the row. -/
def processNumeric (usdMin usdMax : ℚ) : Field × Field :=
  let possible_units := unitOrder.filter fun u =>
    interval_intersects usdMin usdMax (UNIT_RANGES u).1 (UNIT_RANGES u).2
  if possible_units.isEmpty then (.invalid, .invalid)
  else
    match possible_units.find? (fun u =>
        decide (YEARLY_MIN ≤ usdMax * UNIT_MULTIPLIER u) &&
        decide (usdMin * UNIT_MULTIPLIER u ≤ YEARLY_MAX)) with
    | none => (.invalid, .invalid)
    | some u =>
      let yMin := usdMin * UNIT_MULTIPLIER u
      let yMax := usdMax * UNIT_MULTIPLIER u
      if yMin < YEARLY_MIN ∨ yMax > YEARLY_MAX then (.invalid, .invalid)
      else (.num (round2 yMin), .num (round2 yMax))

/-- The per-row body of process_file (lines 168-257): NA handling
(both NA preserved; one-sided NA symmetrically filled), USD conversion,
parse/positivity gate, then unit inference.  Both fields are written
together in every branch, exactly as the source does with df.at. -/
def process_row (fx : String → Option ℚ) (currency : Option String)
    (rawMin rawMax : RawVal) : Field × Field :=
  if rawMin = .na ∧ rawMax = .na then (.na, .na)
  else
    let p : RawVal × RawVal :=
      if rawMin = .na then (rawMax, rawMax)
      else if rawMax = .na then (rawMin, rawMin)
      else (rawMin, rawMax)
    match to_usd p.1 currency fx, to_usd p.2 currency fx with
    | some usdMin, some usdMax =>
      if usdMin ≤ 0 ∨ usdMax ≤ 0 then (.invalid, .invalid)
      else processNumeric usdMin usdMax
    | some _, none => (.invalid, .invalid)
    | none, _ => (.invalid, .invalid)

/-
Spec-side restatement of the claimed unit-inference algorithm, written
from the claim's words for comparison with the source embedding: bands
with their annualization factors in fixed priority order, overlap (not
containment) tests, first accepted unit, final full-containment check.
-/
/-- Two closed intervals overlap. -/
def intervalsOverlap (lo1 hi1 lo2 hi2 : ℚ) : Prop := lo2 ≤ hi1 ∧ lo1 ≤ hi2

instance (lo1 hi1 lo2 hi2 : ℚ) : Decidable (intervalsOverlap lo1 hi1 lo2 hi2) :=
  inferInstanceAs (Decidable (_ ∧ _))

/-- The four fixed bands with annualization factors, in the claimed
priority order hour, week, month, year. -/
def claimBands : List (ℚ × ℚ × ℚ) :=
  [(15, 250, 2080), (400, 8000, 52), (1500, 40000, 12), (20000, 500000, 1)]

/-- The algorithm exactly as the claim states it. -/
def claimUnitInference (a b : ℚ) : Field × Field :=
  let candidates := claimBands.filter fun t => decide (intervalsOverlap a b t.1 t.2.1)
  match candidates.find? (fun t =>
      decide (intervalsOverlap (a * t.2.2) (b * t.2.2) 20000 500000)) with
  | none => (.invalid, .invalid)
  | some t =>
    if 20000 ≤ a * t.2.2 ∧ b * t.2.2 ≤ 500000 then
      (.num (round2 (a * t.2.2)), .num (round2 (b * t.2.2)))
    else (.invalid, .invalid)

/-- The triple of band bounds and factor attached to a unit. -/
def bandOf (u : SalaryUnit) : ℚ × ℚ × ℚ :=
  ((UNIT_RANGES u).1, (UNIT_RANGES u).2, UNIT_MULTIPLIER u)

end Salary

namespace Orchestrator

/-
Embedding of the pipeline orchestrator of src/app/pages/p1_pipeline.py.

A stage's output directory is modelled by the step key; the filesystem
is a map from step key to its directory listing, or none when the
directory does not exist.  Glob patterns of the shape
  pfx*stem*.csv
(the only shape the orchestrator uses) are modelled by an executable
matcher on character lists.
-/
/-- One segment of a file name is the pattern fragment before the
first star; isPre checks it starts the name. -/
def isPre : List Char → List Char → Bool
  | [], _ => true
  | _ :: _, [] => false
  | a :: as, b :: bs => a == b && isPre as bs

/-- needle occurs contiguously somewhere in the haystack. -/
def hasSub (needle : List Char) : List Char → Bool
  | [] => isPre needle []
  | c :: rest => isPre needle (c :: rest) || hasSub needle rest

def isSuf (s l : List Char) : Bool := isPre s.reverse l.reverse

/-- name matches the glob pattern pfx*stem*.csv, i.e. name
decomposes as pfx ++ u ++ stem ++ v ++ ".csv". -/
def globMatch (pfx stem name : String) : Bool :=
  let n := name.toList
  let p := pfx.toList
  isPre p n &&
    (let rest := n.drop p.length
     isSuf ['.', 'c', 's', 'v'] rest && hasSub stem.toList (rest.take (rest.length - 4)))

/-- Path(file_name).stem: the file name without its final extension. -/
def stemOf (s : String) : String :=
  let r := s.toList.reverse
  let i := r.findIdx (· == '.')
  let sr := r.drop (i + 1)
  if sr.isEmpty then s else ⟨sr.reverse⟩

/-- StageStatus values used by the page. -/
inductive Status
  | not_started
  | running
  | done
  | fail
  | skipped
  deriving DecidableEq

/-- PIPELINE_STEPS keys in insertion order (p1_pipeline.py lines 105-114). -/
def stepKeys : List String :=
  ["s1.1", "s2.1", "s2.2", "s2.3", "s2.4", "s2.5", "s2.6", "s2.7"]

/-- STEP_OUTPUT_DIRS keys in insertion order (lines 117-125). -/
def procSteps : List String :=
  ["s2.1", "s2.2", "s2.3", "s2.4", "s2.5", "s2.6", "s2.7"]

/-- STEP_FILE_PREFIX (lines 151-159). -/
def stepPfx : String → String
  | "s2.1" => "mapped_"
  | "s2.2" => "extracted_desc_"
  | "s2.3" => "normalized_"
  | "s2.4" => "enriched_"
  | "s2.5" => "enriched_"
  | "s2.6" => "standardized_"
  | "s2.7" => "validated_"
  | _ => ""

/-- The filesystem restricted to stage-output directories: per step key,
the directory listing, or none when the directory does not exist. -/
def StepFS : Type := String → Option (List String)

/-- Per-file per-stage status map. -/
def StatusMap : Type := String → String → Status

/-- get_next_steps (lines 439-444). -/
def get_next_steps (k : String) : List String :=
  if k ∈ stepKeys then stepKeys.drop (stepKeys.indexOf k + 1) else []

/-- A single st.session_state.pipeline_state[f][s] = v assignment. -/
def setStatus (st : StatusMap) (f s : String) (v : Status) : StatusMap :=
  fun f' s' => if f' = f ∧ s' = s then v else st f' s'

/-- The exception handler of execute_pipeline_realtime (lines 326-334):
mark the failing stage fail, then mark every later stage skipped. -/
def markFailure (st : StatusMap) (f k : String) : StatusMap :=
  (get_next_steps k).foldl (fun acc s => setStatus acc f s .skipped)
    (setStatus st f k .fail)

/-- detect_step_done (lines 446-453). -/
def detect_step_done (fs : StepFS) (stepKey fileName : String) : Bool :=
  if stepKey ∈ procSteps then
    match fs stepKey with
    | none => false
    | some listing =>
      listing.any fun n => globMatch (stepPfx stepKey) (stemOf fileName) n
  else false

/-- The status that init_pipeline_state (lines 396-412) assigns to one
(file, stage with an output directory) pair: done exactly when the
stage's directory exists and holds a file matching
stage_prefix*file_stem*.csv, not_started otherwise. -/
def initStepStatus (fs : StepFS) (fileName stepKey : String) : Status :=
  match fs stepKey with
  | none => .not_started
  | some listing =>
    if listing.any (fun n => globMatch (stepPfx stepKey) (stemOf fileName) n)
    then .done else .not_started

/-- The overwrite deletion of execute_pipeline_realtime (lines 294-300):
in the stage's output directory, unlink every file matching
stage_prefix*file_stem*.csv; directories of other stages are untouched,
and a missing directory means nothing happens. -/
def overwrite_delete (fs : StepFS) (stepKey fileName : String) : StepFS :=
  if stepKey ∈ procSteps then
    match fs stepKey with
    | none => fs
    | some listing =>
      fun k =>
        if k = stepKey then
          some (listing.filter fun n =>
            !(globMatch (stepPfx stepKey) (stemOf fileName) n))
        else fs k
  else fs

/-- stepKeys[idx - 1]: the stage immediately before stepKey. -/
def prevStep (stepKey : String) : String :=
  stepKeys.getD (stepKeys.indexOf stepKey - 1) ""

/-- The input resolution of execute_pipeline_realtime for a non-first
stage (lines 267-283): glob the previous stage's output directory for
prev_prefix*stem*.csv; no match raises FileNotFoundError, otherwise the
first match is used (matched[0]).  mkdir(exist_ok=True) makes a missing
directory equivalent to an empty one. -/
def resolve_input (fs : StepFS) (stepKey fileName : String) : Except String String :=
  let prev := prevStep stepKey
  let listing := (fs prev).getD []
  match listing.filter (fun n => globMatch (stepPfx prev) (stemOf fileName) n) with
  | [] => .error ("Input file for " ++ stepKey ++ " not found")
  | f :: _ => .ok f

/-- Example filesystem for the init-status claim: only s2.3's directory
exists and holds one output. -/
def exFS5 : StepFS :=
  fun k => if k = "s2.3" then some ["normalized_a.csv"] else none

/-- Example filesystem for the overwrite claim: s2.1's directory holds
the mapped output of file ab.csv. -/
def exFS6 : StepFS :=
  fun k => if k = "s2.1" then some ["mapped_ab.csv"] else none

/-- Example filesystem for the input-resolution claim: s2.3's directory
holds two files whose names both contain the stem "a". -/
def exFS3 : StepFS :=
  fun k => if k = "s2.3" then some ["normalized_a.csv", "normalized_xa.csv"] else none

end Orchestrator

namespace CityNorm

/-
Embedding of the city resolution of normalize_city_file in
src/pipeline/step2_processing/2.3_normalizing_values.py (lines 309-331):
this values-normalization stage is the one the orchestrator runs as
s2.3, and its output directory is the one the geo-enrichment stage s2.4
reads.  normalize_text and the two loaded reference tables
(CITY_ALIAS_LOOKUP, CITY_NAME_LOOKUP) are parameters.
-/
def resolve_city (normalizeText : String → String)
    (cityAliasLookup cityNameLookup : String → Option String)
    (raw : String) : String :=
  let norm := normalizeText raw
  if norm = "__NA__" then "__NA__"
  else
    match cityAliasLookup norm with
    | some canonical =>
      match cityNameLookup (normalizeText canonical) with
      | some official => official
      | none => "__UNMATCHED__"
    | none => "__UNMATCHED__"

/-- The same resolution in the superseded variant
2.3_normalizing_city_alias.py (lines 117-132), which is wired to
directories no pipeline stage consumes and writes "__INVALID__" where
the live stage writes "__UNMATCHED__". -/
def resolve_city_alias_variant (normalizeText : String → String)
    (cityAliasLookup cityNameLookup : String → Option String)
    (raw : String) : String :=
  let norm := normalizeText raw
  if norm = "__NA__" then "__NA__"
  else
    match cityAliasLookup norm with
    | some canonical =>
      match cityNameLookup (normalizeText canonical) with
      | some official => official
      | none => "__INVALID__"
    | none => "__INVALID__"

end CityNorm

namespace Role

/-
Embedding of extract_roles in
src/pipeline/step2_processing/2.6_standardizing_role_name.py, from the
normalized title's token list onward (tokens = normalize_text(title).split()).
A taxonomy row is one item of the MATCH_TERMS / EXCLUDE_TERMS dicts
built from the role taxonomy table: (canonical role, term set, exclude
set); dict keys are unique by construction.
-/
def TaxRow : Type := String × List String × List String

/-- " ".join. -/
def joinSpace : List String → String
  | [] => ""
  | [x] => x
  | x :: xs => x ++ " " ++ joinSpace xs

/-- Sliding-window phrases (lines 117-120): for every start i, windows
tokens[i:j] for j in i+1 .. min(i+4, len+1), i.e. of 1-3 tokens. -/
def phrases (tokens : List String) : List String :=
  (List.range tokens.length).flatMap fun i =>
    [1, 2, 3].filterMap fun len =>
      if i + len ≤ tokens.length then some (joinSpace ((tokens.drop i).take len))
      else none

/-- full_text = " " + norm + " " (line 111). -/
def full_text (tokens : List String) : String := " " ++ joinSpace tokens ++ " "

/-- Python's str.split() word count (len(term.split())). -/
def splitWsAux : List Char → List Char → List (List Char)
  | [], acc => if acc.isEmpty then [] else [acc.reverse]
  | c :: rest, acc =>
    if Salary.isSpaceChar c then
      if acc.isEmpty then splitWsAux rest [] else acc.reverse :: splitWsAux rest []
    else splitWsAux rest (c :: acc)

def wordCount (s : String) : Nat := (splitWsAux s.toList []).length

/-- One term matches the title (lines 131-140): it is one of the
sliding-window phrases, or a multi-word term occurs space-delimited in
the full text, or it is a single token. -/
def termMatches (tokens : List String) (term : String) : Bool :=
  (phrases tokens).contains term
  || (decide (1 < wordCount term)
      && Orchestrator.hasSub (" " ++ term ++ " ").toList (full_text tokens).toList)
  || tokens.contains term

def roleMatched (tokens : List String) (terms : List String) : Bool :=
  terms.any (termMatches tokens)

/-- The exclude veto (lines 145-147): the role has exclude terms and
one of them appears among the title's tokens. -/
def excludeVeto (tokens : List String) (excl : List String) : Bool :=
  !excl.isEmpty && excl.any fun e => tokens.contains e

/-- Level 1 survivors (lines 128-149): canonical roles whose term set
matches and whose exclude terms do not occur among the tokens. -/
def direct_matches (tax : List TaxRow) (tokens : List String) : List String :=
  (tax.filter fun r => roleMatched tokens r.2.1 && !(excludeVeto tokens r.2.2)).map
    fun r => r.1

/-- Python's string < : lexicographic comparison by code point. -/
def charListLt : List Char → List Char → Bool
  | [], [] => false
  | [], _ :: _ => true
  | _ :: _, [] => false
  | a :: as, b :: bs =>
    if a.toNat < b.toNat then true
    else if b.toNat < a.toNat then false
    else charListLt as bs

def strLt (a b : String) : Bool := charListLt a.toList b.toList

/-- Python's sorted() on distinct strings: insertion sort by
lexicographic order. -/
def insertSorted (s : String) : List String → List String
  | [] => [s]
  | x :: xs => if strLt s x then s :: x :: xs else x :: insertSorted s xs

def sortStrs : List String → List String
  | [] => []
  | x :: xs => insertSorted x (sortStrs xs)

/-- ROLE_CORE (lines 85-93), in dict insertion order. -/
def ROLE_CORE : List (String × String) :=
  [("analyst", "Data Analyst"), ("engineer", "Data Engineer"),
   ("scientist", "Data Scientist"), ("architect", "Data Architect"),
   ("steward", "Data Manager"), ("modeler", "Data Architect"),
   ("modeller", "Data Architect")]

/-- DATA_CONTEXT (lines 95-98). -/
def DATA_CONTEXT : List String :=
  ["data", "analytics", "analysis", "machine", "learning",
   "ai", "platform", "warehouse", "modeling", "modelling"]

/-- leadership_terms (lines 169-172). -/
def leadership_terms : List String :=
  ["officer", "director", "directeur", "responsable", "chief", "head", "lead"]

/-- hard_exclude (lines 174-178). -/
def hard_exclude : List String :=
  ["technician", "center", "centre", "facilities", "entry", "clerk",
   "assistant", "collector", "survey", "security", "shift", "hvac", "electrical"]

/-- EXCLUDE_TERMS.get(canonical) with a missing key yielding no veto. -/
def exclOf (tax : List TaxRow) (c : String) : List String :=
  match tax.find? fun r => r.1 == c with
  | some r => r.2.2
  | none => []

/-- Level 3 (lines 165-189): data + leadership token, no hard-exclude
token. -/
def level3 (tokens : List String) : List String :=
  if tokens.contains "data"
      && (tokens.any fun t => leadership_terms.contains t)
      && !(tokens.any fun t => hard_exclude.contains t) then
    if tokens.contains "ai" || tokens.contains "ia" then ["Data Lead"]
    else ["Data Manager"]
  else []

/-- extract_roles (lines 104-189): sorted deduplicated direct matches
if any, else the ROLE_CORE fallback under a data-context token, else
level 3, else nothing. -/
def extract_roles (tax : List TaxRow) (tokens : List String) : List String :=
  if !(sortStrs (direct_matches tax tokens).dedup).isEmpty then
    sortStrs (direct_matches tax tokens).dedup
  else if tokens.any fun t => DATA_CONTEXT.contains t then
    match ROLE_CORE.find? (fun p =>
        tokens.contains p.1 && !(excludeVeto tokens (exclOf tax p.2))) with
    | some p => [p.2]
    | none => level3 tokens
  else level3 tokens

/-- standardize_role_file (lines 213-218): join the roles with " | ",
or the __UNMATCHED__ marker when none matched. -/
def role_output (tax : List TaxRow) (tokens : List String) : String :=
  match extract_roles tax tokens with
  | [] => "__UNMATCHED__"
  | rs => String.intercalate " | " rs

/-- Example taxonomy and title with two matching roles. -/
def exTax : List TaxRow :=
  [("Data Scientist", (["data scientist"], [])),
   ("Data Engineer", (["engineer"], [])),
   ("Data Analyst", (["analyst"], ["intern"]))]

def exTokens : List String := ["senior", "data", "scientist", "engineer"]

end Role

namespace Mapper

/-
Embedding of the remote-flag part of the export in
src/pipeline/tools/s2_0_column_mapper_app.py (render, lines 959-1001).
A raw cell of the source column is none for a pandas-NaN cell,
some s otherwise.
-/
def NA_VALUE : String := "__NA__"

/-- ASCII lowering, Python str.lower() on the flag tokens involved. -/
def lowerChar (c : Char) : Char :=
  if 'A' ≤ c ∧ c ≤ 'Z' then Char.ofNat (c.toNat + 32) else c

def toLowerStr (s : String) : String := ⟨s.toList.map lowerChar⟩

/-- Lines 962-974: classification of one source cell mapped as
work_from_home_flag — Remote for true-like, Onsite for false-like, the
NA marker otherwise. -/
def classify_wfh : Option String → String
  | none => NA_VALUE
  | some s =>
    let val := toLowerStr (Salary.strip s)
    if val = "true" ∨ val = "1" ∨ val = "yes" ∨ val = "y" then "Remote"
    else if val = "false" ∨ val = "0" ∨ val = "no" ∨ val = "n" then "Onsite"
    else NA_VALUE

/-- Lines 959-985: the helping-loop body for work_from_home_flag.
flag_vals is computed row by row (lines 960-974); then line 977 rebinds
flag_vals to None unconditionally, directly under the comment saying
the column should be filled only when remote_option is not yet present,
so the guard `if flag_vals is not None` (line 978) is always false and
the write into df_out (lines 979-985, the some-branch below) is dead
code. -/
def wfh_step (raw : List (Option String)) (dfOutRemote : Option (List String)) :
    Option (List String) :=
  let flagValsComputed := raw.map classify_wfh
  let flagVals : Option (List String) := none
  match flagVals, flagValsComputed with
  | some fv, _ =>
    match dfOutRemote with
    | some cur => some ((cur.zip fv).map fun p => if p.1 ≠ NA_VALUE then p.1 else p.2)
    | none => some fv
  | none, _ => dfOutRemote

/-- The exported remote_option column when the only mapping for it is a
source column mapped to the helping field work_from_home_flag: after
the helping loop contributes nothing, section 3 (lines 989-1001) sees
remote_option unmapped and fills the canonical field with NA_VALUE. -/
def export_remote_option (raw : List (Option String)) : List String :=
  match wfh_step raw none with
  | some col => col
  | none => List.replicate raw.length NA_VALUE

end Mapper

namespace Salary

theorem interval_intersects_eq_overlap (aMin aMax lo hi : ℚ) :
    interval_intersects aMin aMax lo hi = decide (intervalsOverlap aMin aMax lo hi) := by
  unfold interval_intersects intervalsOverlap
  rw [Bool.eq_iff_iff]
  simp only [Bool.not_eq_true', Bool.or_eq_false_iff, decide_eq_false_iff_not,
    decide_eq_true_eq, not_lt, gt_iff_lt]

theorem claimBands_eq_map : claimBands = unitOrder.map bandOf := by
  simp [claimBands, unitOrder, bandOf, UNIT_RANGES, UNIT_MULTIPLIER]

theorem processNumeric_eq_claim (a b : ℚ) :
    processNumeric a b = claimUnitInference a b := by
  have hf1 : ((fun t : ℚ × ℚ × ℚ => decide (intervalsOverlap a b t.1 t.2.1)) ∘ bandOf) =
      (fun u => interval_intersects a b (UNIT_RANGES u).1 (UNIT_RANGES u).2) := by
    funext u
    show decide (intervalsOverlap a b (UNIT_RANGES u).1 (UNIT_RANGES u).2) = _
    rw [interval_intersects_eq_overlap]
  have hf2 : ((fun t : ℚ × ℚ × ℚ =>
        decide (intervalsOverlap (a * t.2.2) (b * t.2.2) 20000 500000)) ∘ bandOf) =
      (fun u : SalaryUnit =>
        decide (YEARLY_MIN ≤ b * UNIT_MULTIPLIER u) &&
        decide (a * UNIT_MULTIPLIER u ≤ YEARLY_MAX)) := by
    funext u
    show decide (intervalsOverlap (a * UNIT_MULTIPLIER u) (b * UNIT_MULTIPLIER u) 20000 500000) = _
    unfold intervalsOverlap YEARLY_MIN YEARLY_MAX
    rw [Bool.decide_and]
  unfold processNumeric claimUnitInference
  simp only [claimBands_eq_map, List.filter_map, hf1, List.find?_map, hf2]
  set L := unitOrder.filter fun u =>
    interval_intersects a b (UNIT_RANGES u).1 (UNIT_RANGES u).2 with hL
  by_cases hemp : L.isEmpty
  · rw [List.isEmpty_iff] at hemp
    simp [hemp]
  · simp only [hemp, if_false]
    cases hfind : L.find? fun u =>
        decide (YEARLY_MIN ≤ b * UNIT_MULTIPLIER u) &&
        decide (a * UNIT_MULTIPLIER u ≤ YEARLY_MAX) with
    | none => simp
    | some u =>
      simp only [Option.map_some]
      show _ = (if 20000 ≤ a * (bandOf u).2.2 ∧ b * (bandOf u).2.2 ≤ 500000 then
          (Field.num (round2 (a * (bandOf u).2.2)), Field.num (round2 (b * (bandOf u).2.2)))
        else (Field.invalid, Field.invalid))
      have hb : (bandOf u).2.2 = UNIT_MULTIPLIER u := rfl
      rw [hb]
      by_cases hc : 20000 ≤ a * UNIT_MULTIPLIER u ∧ b * UNIT_MULTIPLIER u ≤ 500000
      · have hnot : ¬(a * UNIT_MULTIPLIER u < YEARLY_MIN ∨ b * UNIT_MULTIPLIER u > YEARLY_MAX) := by
          unfold YEARLY_MIN YEARLY_MAX
          push_neg
          exact ⟨hc.1, hc.2⟩
        rw [if_neg hnot, if_pos hc]
        simp
      · have hyes : a * UNIT_MULTIPLIER u < YEARLY_MIN ∨ b * UNIT_MULTIPLIER u > YEARLY_MAX := by
          unfold YEARLY_MIN YEARLY_MAX
          rw [not_and_or] at hc
          rcases hc with hc | hc
          · exact Or.inl (not_le.mp hc)
          · exact Or.inr (not_le.mp hc)
        rw [if_pos hyes, if_neg hc]
        simp

theorem round2_intCast (n : ℤ) : round2 (n : ℚ) = n := by
  unfold round2 roundHalfEven
  have h1 : ((n : ℚ) * 100) = ((100 * n : ℤ) : ℚ) := by push_cast; ring
  rw [h1, Int.floor_intCast]
  rw [if_pos (by simp)]
  push_cast
  field_simp

/-- round(x, 2) is the identity on integer-valued rationals. -/
theorem round2_of_int (q : ℚ) (n : ℤ) (h : q = (n : ℚ)) : round2 q = q := by
  rw [h, round2_intCast]

theorem processNumeric_kinds (a b : ℚ) :
    processNumeric a b = (.invalid, .invalid) ∨
    ∃ x y, processNumeric a b = (.num x, .num y) := by
  simp only [processNumeric]
  split
  · left; rfl
  · split
    · left; rfl
    · split
      · left; rfl
      · right; exact ⟨_, _, rfl⟩

/-- C1: for every row whose min and max parse to positive USD numbers,
the salary-validation stage runs exactly the claimed unit-inference
algorithm (overlap tests against the four fixed bands, priority order
hour/week/month/year with factors 2080/52/12/1, first unit whose yearly
interval overlaps the global band, full-containment final check,
rounded yearly values or Invalid on both fields); in particular
(50000, 70000, USD) is unchanged, (25, 35, USD) becomes
(52000, 72800) and (5, 8, USD) becomes Invalid. -/
theorem c1_salary_unit_inference :
    (∀ (fx : String → Option ℚ) (currency : Option String) (q1 q2 a b : ℚ),
        to_usd (.num q1) currency fx = some a →
        to_usd (.num q2) currency fx = some b →
        0 < a → 0 < b →
        process_row fx currency (.num q1) (.num q2) = claimUnitInference a b)
    ∧ process_row (fun _ => none) (some "USD") (.num 50000) (.num 70000) =
        (.num 50000, .num 70000)
    ∧ process_row (fun _ => none) (some "USD") (.num 25) (.num 35) =
        (.num 52000, .num 72800)
    ∧ process_row (fun _ => none) (some "USD") (.num 5) (.num 8) =
        (.invalid, .invalid) := by
  have husd : NA_STRINGS.contains (strip "USD") = false := by decide
  have hgen : ∀ (fx : String → Option ℚ) (currency : Option String) (q1 q2 a b : ℚ),
      to_usd (.num q1) currency fx = some a →
      to_usd (.num q2) currency fx = some b →
      0 < a → 0 < b →
      process_row fx currency (.num q1) (.num q2) = claimUnitInference a b := by
    intro fx currency q1 q2 a b h1 h2 ha hb
    simp only [process_row]
    simp only [reduceCtorEq, false_and, and_false, if_false, ite_false]
    rw [h1, h2]
    show (if a ≤ 0 ∨ b ≤ 0 then (Field.invalid, Field.invalid) else processNumeric a b) =
      claimUnitInference a b
    rw [if_neg (by push_neg; exact ⟨ha, hb⟩)]
    exact processNumeric_eq_claim a b
  have hus : ∀ q : ℚ, to_usd (.num q) (some "USD") (fun _ => none) = some q := by
    intro q
    simp [to_usd, husd]
  refine ⟨hgen, ?_, ?_, ?_⟩
  · rw [hgen (fun _ => none) (some "USD") 50000 70000 50000 70000 (hus 50000) (hus 70000)
      (by norm_num) (by norm_num)]
    unfold claimUnitInference claimBands
    norm_num [List.filter, List.find?, intervalsOverlap]
    exact ⟨round2_of_int _ 50000 (by norm_num), round2_of_int _ 70000 (by norm_num)⟩
  · rw [hgen (fun _ => none) (some "USD") 25 35 25 35 (hus 25) (hus 35)
      (by norm_num) (by norm_num)]
    unfold claimUnitInference claimBands
    norm_num [List.filter, List.find?, intervalsOverlap]
    exact ⟨round2_of_int _ 52000 (by norm_num), round2_of_int _ 72800 (by norm_num)⟩
  · rw [hgen (fun _ => none) (some "USD") 5 8 5 8 (hus 5) (hus 8)
      (by norm_num) (by norm_num)]
    unfold claimUnitInference claimBands
    norm_num [List.filter, List.find?, intervalsOverlap]

/-- Witness for c1_salary_unit_inference at a concrete positive input. -/
theorem c1_salary_unit_inference_witness :
    process_row (fun _ => none) (some "EUR") (.num 30) (.num 40) =
      claimUnitInference 30 40 :=
  c1_salary_unit_inference.1 (fun _ => none) (some "EUR") 30 40 30 40
    (by decide) (by decide) (by norm_num) (by norm_num)

/-- C2: a both-NA salary pair is preserved unchanged, and a one-sided
NA pair is symmetrically filled from the present value, after which the
degenerate pair goes through the normal conversion and validation. -/
theorem c2_salary_na_fill :
    (∀ (fx : String → Option ℚ) (currency : Option String),
        process_row fx currency .na .na = (.na, .na))
    ∧ (∀ (fx : String → Option ℚ) (currency : Option String) (v : RawVal),
        v ≠ RawVal.na →
        process_row fx currency .na v = process_row fx currency v v
        ∧ process_row fx currency v .na = process_row fx currency v v) := by
  constructor
  · intro fx currency
    simp [process_row]
  · intro fx currency v hv
    constructor
    · simp [process_row, hv]
    · simp [process_row, hv]

/-- Witness for c2_salary_na_fill at a concrete one-sided-NA input. -/
theorem c2_salary_na_fill_witness :
    process_row (fun _ => none) none .na (.num 10) =
      process_row (fun _ => none) none (.num 10) (.num 10) :=
  (c2_salary_na_fill.2 (fun _ => none) none (.num 10) (by decide)).1

/-- C10: after the salary-validation stage processes a row, min_salary
and max_salary always agree in kind: both NA, both Invalid, or both
numeric yearly values; never one marker and one number. -/
theorem c10_salary_fields_agree :
    ∀ (fx : String → Option ℚ) (currency : Option String) (rawMin rawMax : RawVal),
    process_row fx currency rawMin rawMax = (.na, .na)
    ∨ process_row fx currency rawMin rawMax = (.invalid, .invalid)
    ∨ ∃ x y, process_row fx currency rawMin rawMax = (.num x, .num y) := by
  intro fx currency rawMin rawMax
  simp only [process_row]
  split
  · left; rfl
  · split
    · split
      · right; left; rfl
      · rcases processNumeric_kinds _ _ with h | ⟨x, y, h⟩
        · right; left; exact h
        · right; right; exact ⟨x, y, h⟩
    · right; left; rfl
    · right; left; rfl

end Salary

namespace Orchestrator

theorem setStatus_same (st : StatusMap) (f s : String) (v : Status) :
    setStatus st f s v f s = v := by
  unfold setStatus
  rw [if_pos ⟨rfl, rfl⟩]

theorem setStatus_ne (st : StatusMap) (f s : String) (v : Status) (f' s' : String)
    (h : ¬(f' = f ∧ s' = s)) : setStatus st f s v f' s' = st f' s' := by
  unfold setStatus
  rw [if_neg h]

theorem foldl_setStatus_ne_file (L : List String) (st : StatusMap) (f : String)
    (v : Status) (f' s' : String) (h : f' ≠ f) :
    (L.foldl (fun acc s => setStatus acc f s v) st) f' s' = st f' s' := by
  induction L generalizing st with
  | nil => rfl
  | cons a T ih =>
    rw [List.foldl_cons, ih]
    exact setStatus_ne _ _ _ _ _ _ fun hh => h hh.1

theorem foldl_setStatus_not_mem (L : List String) (st : StatusMap) (f : String)
    (v : Status) (s' : String) (h : s' ∉ L) :
    (L.foldl (fun acc s => setStatus acc f s v) st) f s' = st f s' := by
  induction L generalizing st with
  | nil => rfl
  | cons a T ih =>
    rw [List.foldl_cons, ih _ fun hm => h (List.mem_cons_of_mem a hm)]
    refine setStatus_ne _ _ _ _ _ _ fun hh => h ?_
    rw [hh.2]
    exact List.mem_cons_self a T

theorem foldl_setStatus_mem (L : List String) (st : StatusMap) (f : String)
    (v : Status) (s' : String) (h : s' ∈ L) :
    (L.foldl (fun acc s => setStatus acc f s v) st) f s' = v := by
  induction L generalizing st with
  | nil => cases h
  | cons a T ih =>
    rw [List.foldl_cons]
    by_cases hm : s' ∈ T
    · exact ih _ hm
    · have hsa : s' = a := by
        rcases List.mem_cons.mp h with h1 | h1
        · exact h1
        · exact absurd h1 hm
      rw [foldl_setStatus_not_mem T _ f v s' hm, hsa, setStatus_same]

/-- C4: when executing (f, k) raises, the orchestrator marks
status(f, k) = fail and status(f, s) = skipped for every stage s after
k, while stages before k for f and all statuses of other files are
unchanged. -/
theorem c4_failure_cascade :
    ∀ (st : StatusMap) (f k : String), k ∈ stepKeys →
      (markFailure st f k f k = .fail)
      ∧ (∀ s, s ∈ get_next_steps k → markFailure st f k f s = .skipped)
      ∧ (∀ s, s ∈ stepKeys → stepKeys.indexOf s < stepKeys.indexOf k →
          markFailure st f k f s = st f s)
      ∧ (∀ f' s, f' ≠ f → markFailure st f k f' s = st f' s) := by
  intro st f k hk
  refine ⟨?_, ?_, ?_, ?_⟩
  · have hnm : k ∉ get_next_steps k := by
      fin_cases hk <;> decide
    unfold markFailure
    rw [foldl_setStatus_not_mem _ _ _ _ _ hnm, setStatus_same]
  · intro s hs
    unfold markFailure
    exact foldl_setStatus_mem _ _ _ _ _ hs
  · intro s hsk hlt
    unfold markFailure
    fin_cases hk <;> fin_cases hsk <;>
      first
        | (exfalso; revert hlt; decide)
        | (rw [foldl_setStatus_not_mem _ _ _ _ _ (by decide)]
           exact setStatus_ne _ _ _ _ _ _ fun hh => absurd hh.2 (by decide))
  · intro f' s hf
    unfold markFailure
    rw [foldl_setStatus_ne_file _ _ _ _ _ _ hf]
    exact setStatus_ne _ _ _ _ _ _ fun hh => hf hh.1

/-- Witness for c4_failure_cascade: failing (f.csv, s2.4) on an
all-done state marks it fail, marks s2.6 skipped, and leaves f.csv's
s2.2 and g.csv's s2.7 done. -/
theorem c4_failure_cascade_witness :
    markFailure (fun _ _ => Status.done) "f.csv" "s2.4" "f.csv" "s2.4" = .fail
    ∧ markFailure (fun _ _ => Status.done) "f.csv" "s2.4" "f.csv" "s2.6" = .skipped
    ∧ markFailure (fun _ _ => Status.done) "f.csv" "s2.4" "f.csv" "s2.2" = .done
    ∧ markFailure (fun _ _ => Status.done) "f.csv" "s2.4" "g.csv" "s2.7" = .done := by
  have h := c4_failure_cascade (fun _ _ => Status.done) "f.csv" "s2.4" (by decide)
  exact ⟨h.1, h.2.1 "s2.6" (by decide), h.2.2.1 "s2.2" (by decide) (by decide),
    h.2.2.2 "g.csv" "s2.7" (by decide)⟩

/-- C5: status initialization sets a stage with an output directory to
done exactly when the directory exists and contains a file matching
stage_prefix*file_stem*.csv, and to not_started otherwise (including a
missing directory); it is a pure projection of the filesystem state, so
a fresh scan of the same state reproduces it, and done implies the
done-detector finds a matching output file on disk. -/
theorem initStepStatus_done_iff (fs : StepFS) (f s : String) :
    initStepStatus fs f s = .done ↔
      ∃ listing, fs s = some listing ∧
        (listing.any fun n => globMatch (stepPfx s) (stemOf f) n) = true := by
  cases hfs : fs s with
  | none =>
    simp [initStepStatus, hfs]
  | some listing =>
    by_cases hmatch : (listing.any fun n => globMatch (stepPfx s) (stemOf f) n) = true
    · refine iff_of_true ?_ ⟨listing, rfl, hmatch⟩
      simp [initStepStatus, hfs, hmatch]
    · refine iff_of_false ?_ ?_
      · simp [initStepStatus, hfs, hmatch]
      · rintro ⟨l, hl, hany⟩
        apply hmatch
        rw [Option.some.inj hl]
        exact hany

theorem initStepStatus_kinds (fs : StepFS) (f s : String) :
    initStepStatus fs f s = .done ∨ initStepStatus fs f s = .not_started := by
  unfold initStepStatus
  cases fs s with
  | none => right; rfl
  | some listing =>
    by_cases hmatch : (listing.any fun n => globMatch (stepPfx s) (stemOf f) n) = true
    · left; simp [hmatch]
    · right; simp [hmatch]

theorem c5_init_status :
    ∀ (fs : StepFS) (f s : String), s ∈ procSteps →
      (initStepStatus fs f s = .done ↔
        ∃ listing, fs s = some listing ∧
          (listing.any fun n => globMatch (stepPfx s) (stemOf f) n) = true)
      ∧ (fs s = none → initStepStatus fs f s = .not_started)
      ∧ (initStepStatus fs f s = .done ∨ initStepStatus fs f s = .not_started)
      ∧ (∀ fs' : StepFS, fs s = fs' s → initStepStatus fs f s = initStepStatus fs' f s)
      ∧ (initStepStatus fs f s = .done → detect_step_done fs s f = true) := by
  intro fs f s hs
  refine ⟨initStepStatus_done_iff fs f s, ?_, initStepStatus_kinds fs f s, ?_, ?_⟩
  · intro hn
    unfold initStepStatus
    rw [hn]
  · intro fs' hsame
    unfold initStepStatus
    rw [hsame]
  · intro hdone
    rcases (initStepStatus_done_iff fs f s).mp hdone with ⟨l, hl, hany⟩
    unfold detect_step_done
    rw [if_pos hs, hl]
    exact hany

/-- Witness for c5_init_status at a concrete filesystem. -/
theorem c5_init_status_witness :
    initStepStatus exFS5 "a.csv" "s2.3" = .done
    ∧ initStepStatus exFS5 "a.csv" "s2.4" = .not_started
    ∧ detect_step_done exFS5 "s2.3" "a.csv" = true := by
  have h3 := c5_init_status exFS5 "a.csv" "s2.3" (by decide)
  have h4 := c5_init_status exFS5 "a.csv" "s2.4" (by decide)
  have hd : initStepStatus exFS5 "a.csv" "s2.3" = .done :=
    h3.1.mpr ⟨["normalized_a.csv"], by decide, by decide⟩
  exact ⟨hd, h4.2.1 (by decide), h3.2.2.2.2 hd⟩

/-- C6 counterexample: the stage-s2.1 output mapped_ab.csv belongs to
file ab.csv (its done-detector matches it), yet an overwrite run for
the different file b.csv at s2.1 deletes it, because the name also
matches the pattern mapped_*b*.csv. -/
theorem c6_counterexample :
    detect_step_done exFS6 "s2.1" "ab.csv" = true
    ∧ "ab.csv" ≠ "b.csv"
    ∧ globMatch (stepPfx "s2.1") (stemOf "ab.csv") "mapped_ab.csv" = true
    ∧ overwrite_delete exFS6 "s2.1" "b.csv" "s2.1" = some ([] : List String)
    ∧ detect_step_done (overwrite_delete exFS6 "s2.1" "b.csv") "s2.1" "ab.csv" = false := by
  refine ⟨by decide, by decide, by decide, by decide, by decide⟩

/-- C6 amended: the overwrite deletion removes exactly the files of the
stage's own output directory that match stage_prefix*file_stem*.csv
(other stages' directories are untouched, and a missing directory is
left alone); a file of another source file survives only when its name
does not match that pattern. -/
theorem c6_overwrite_amended :
    ∀ (fs : StepFS) (stepKey fileName : String), stepKey ∈ procSteps →
      (∀ listing, fs stepKey = some listing →
        overwrite_delete fs stepKey fileName stepKey =
          some (listing.filter fun n =>
            !(globMatch (stepPfx stepKey) (stemOf fileName) n)))
      ∧ (∀ k, k ≠ stepKey → overwrite_delete fs stepKey fileName k = fs k)
      ∧ (fs stepKey = none → overwrite_delete fs stepKey fileName = fs) := by
  intro fs stepKey fileName hs
  unfold overwrite_delete
  rw [if_pos hs]
  refine ⟨?_, ?_, ?_⟩
  · intro listing hl
    rw [hl]
    simp
  · intro k hk
    cases hfs : fs stepKey with
    | none => rfl
    | some listing =>
      simp [hk]
  · intro hn
    rw [hn]

/-- Witness for c6_overwrite_amended at a concrete filesystem. -/
theorem c6_overwrite_amended_witness :
    overwrite_delete exFS6 "s2.1" "b.csv" "s2.3" = exFS6 "s2.3"
    ∧ overwrite_delete exFS6 "s2.1" "b.csv" "s2.1" =
        some (["mapped_ab.csv"].filter fun n =>
          !(globMatch (stepPfx "s2.1") (stemOf "b.csv") n)) := by
  have h := c6_overwrite_amended exFS6 "s2.1" "b.csv" (by decide)
  exact ⟨h.2.1 "s2.3" (by decide), h.1 ["mapped_ab.csv"] (by decide)⟩

/-- C3 counterexample: for stage s2.4 and file a.csv, two files of the
previous stage's directory match normalized_*a*.csv, yet input
resolution does not raise: it silently returns the first match. -/
theorem c3_counterexample :
    (((exFS3 (prevStep "s2.4")).getD []).filter fun n =>
        globMatch (stepPfx (prevStep "s2.4")) (stemOf "a.csv") n) =
      ["normalized_a.csv", "normalized_xa.csv"]
    ∧ resolve_input exFS3 "s2.4" "a.csv" = .ok "normalized_a.csv" := by
  exact ⟨by decide, rfl⟩

/-- C3 amended: a non-first stage's input is resolved by globbing the
previous stage's output directory for prev_prefix*stem*.csv; zero
matches raises an input-resolution error, while more than one match is
not an error: the first match in directory order is used silently. -/
theorem c3_resolve_input_amended :
    ∀ (fs : StepFS) (stepKey fileName : String),
      stepKey ∈ procSteps → stepKey ≠ "s2.1" →
      (∀ x xs, (((fs (prevStep stepKey)).getD []).filter fun n =>
          globMatch (stepPfx (prevStep stepKey)) (stemOf fileName) n) = x :: xs →
        resolve_input fs stepKey fileName = .ok x)
      ∧ ((((fs (prevStep stepKey)).getD []).filter fun n =>
          globMatch (stepPfx (prevStep stepKey)) (stemOf fileName) n) = [] →
        ∃ e, resolve_input fs stepKey fileName = .error e) := by
  intro fs stepKey fileName hmem hfirst
  simp only [resolve_input]
  constructor
  · intro x xs hm
    rw [hm]
  · intro hm
    rw [hm]
    exact ⟨_, rfl⟩

/-- Witness for c3_resolve_input_amended: an empty match set raises,
a nonempty one returns its first element. -/
theorem c3_resolve_input_amended_witness :
    (∃ e, resolve_input exFS3 "s2.4" "b.csv" = .error e)
    ∧ resolve_input exFS3 "s2.4" "a.csv" = .ok "normalized_a.csv" := by
  have hb := c3_resolve_input_amended exFS3 "s2.4" "b.csv" (by decide) (by decide)
  have ha := c3_resolve_input_amended exFS3 "s2.4" "a.csv" (by decide) (by decide)
  exact ⟨hb.2 (by decide), ha.1 "normalized_a.csv" ["normalized_xa.csv"] (by decide)⟩

end Orchestrator

namespace CityNorm

/-- C7: a present (non-NA) city value that fails resolution — no alias
entry for the normalized city, or an alias whose canonical city is not
verified against the city reference table — is set to the
__UNMATCHED__ marker; a verified alias resolves to the official city
name. -/
theorem c7_city_unmatched :
    ∀ (normalizeText : String → String)
      (cityAliasLookup cityNameLookup : String → Option String) (raw : String),
      normalizeText raw ≠ "__NA__" →
      (cityAliasLookup (normalizeText raw) = none →
        resolve_city normalizeText cityAliasLookup cityNameLookup raw = "__UNMATCHED__")
      ∧ (∀ canonical, cityAliasLookup (normalizeText raw) = some canonical →
          cityNameLookup (normalizeText canonical) = none →
          resolve_city normalizeText cityAliasLookup cityNameLookup raw = "__UNMATCHED__")
      ∧ (∀ canonical official, cityAliasLookup (normalizeText raw) = some canonical →
          cityNameLookup (normalizeText canonical) = some official →
          resolve_city normalizeText cityAliasLookup cityNameLookup raw = official) := by
  intro nt al cl raw hna
  refine ⟨?_, ?_, ?_⟩
  · intro hal
    simp only [resolve_city]
    rw [if_neg hna, hal]
  · intro canonical hal hcl
    simp only [resolve_city]
    rw [if_neg hna]
    simp only [hal, hcl]
  · intro canonical official hal hcl
    simp only [resolve_city]
    rw [if_neg hna]
    simp only [hal, hcl]

/-- Witness for c7_city_unmatched: an unaliased present city and an
aliased-but-unverified city both become __UNMATCHED__. -/
theorem c7_city_unmatched_witness :
    resolve_city (fun s => s) (fun _ => none) (fun _ => none) "Atlantis" = "__UNMATCHED__"
    ∧ resolve_city (fun s => s)
        (fun s => if s = "PEKING" then some "Beijing" else none)
        (fun _ => none) "PEKING" = "__UNMATCHED__" :=
  ⟨(c7_city_unmatched (fun s => s) (fun _ => none) (fun _ => none) "Atlantis"
      (by decide)).1 rfl,
   (c7_city_unmatched (fun s => s)
      (fun s => if s = "PEKING" then some "Beijing" else none)
      (fun _ => none) "PEKING" (by decide)).2.1 "Beijing" rfl rfl⟩

end CityNorm

namespace Role

theorem insertSorted_ne_nil (s : String) (l : List String) : insertSorted s l ≠ [] := by
  cases l with
  | nil => simp [insertSorted]
  | cons x xs =>
    unfold insertSorted
    split <;> simp

theorem sortStrs_eq_nil_iff (l : List String) : sortStrs l = [] ↔ l = [] := by
  cases l with
  | nil => simp [sortStrs]
  | cons x xs =>
    simp [sortStrs, insertSorted_ne_nil]

theorem mem_direct_matches_iff (tax : List TaxRow) (tokens : List String) (c : String) :
    c ∈ direct_matches tax tokens ↔
      ∃ terms excl, (c, terms, excl) ∈ tax
        ∧ roleMatched tokens terms = true
        ∧ excludeVeto tokens excl = false := by
  constructor
  · intro h
    rcases List.mem_map.mp h with ⟨r, hr, hrc⟩
    rcases List.mem_filter.mp hr with ⟨hrt, hp⟩
    rcases Bool.and_eq_true_iff.mp hp with ⟨h1, h2⟩
    refine ⟨r.2.1, r.2.2, ?_, h1, by simpa using h2⟩
    rw [← hrc]
    simpa using hrt
  · rintro ⟨terms, excl, hmem, hm, hv⟩
    refine List.mem_map.mpr ⟨(c, terms, excl), List.mem_filter.mpr ⟨hmem, ?_⟩, rfl⟩
    show (roleMatched tokens terms && !(excludeVeto tokens excl)) = true
    rw [hm, hv]
    rfl

theorem extract_roles_of_direct (tax : List TaxRow) (tokens : List String)
    (h : direct_matches tax tokens ≠ []) :
    extract_roles tax tokens = sortStrs (direct_matches tax tokens).dedup := by
  have hne : sortStrs (direct_matches tax tokens).dedup ≠ [] := by
    rw [Ne, sortStrs_eq_nil_iff, List.dedup_eq_nil]
    exact h
  have hcond : (!(sortStrs (direct_matches tax tokens).dedup).isEmpty) = true := by
    cases hl : sortStrs (direct_matches tax tokens).dedup with
    | nil => exact absurd hl hne
    | cons x xs => rfl
  unfold extract_roles
  rw [if_pos hcond]

/-- C8: in the direct-match level, a canonical role is in the survivor
set exactly when one of its terms matches and none of its exclude
terms occurs among the title's tokens (so a matching role with an
exclude term present is discarded); the survivors are deduplicated,
sorted and joined with " | " into the single output value, and one
title can yield several canonical roles. -/
theorem c8_role_direct_match :
    (∀ (tax : List TaxRow) (tokens : List String) (c : String),
        c ∈ direct_matches tax tokens ↔
          ∃ terms excl, (c, terms, excl) ∈ tax
            ∧ roleMatched tokens terms = true
            ∧ excludeVeto tokens excl = false)
    ∧ (∀ (tax : List TaxRow) (tokens : List String) (c : String)
          (terms excl : List String),
        (c, terms, excl) ∈ tax →
        (∀ terms2 excl2, (c, terms2, excl2) ∈ tax → terms2 = terms ∧ excl2 = excl) →
        excludeVeto tokens excl = true →
        c ∉ direct_matches tax tokens)
    ∧ (∀ (tax : List TaxRow) (tokens : List String),
        direct_matches tax tokens ≠ [] →
        role_output tax tokens =
          String.intercalate " | " (sortStrs (direct_matches tax tokens).dedup))
    ∧ role_output exTax exTokens = "Data Engineer | Data Scientist" := by
  refine ⟨mem_direct_matches_iff, ?_, ?_, ?_⟩
  · intro tax tokens c terms excl hmem huniq hveto hc
    rcases (mem_direct_matches_iff tax tokens c).mp hc with ⟨t2, e2, hm2, hmt, hve⟩
    rcases huniq t2 e2 hm2 with ⟨rfl, rfl⟩
    rw [hveto] at hve
    cases hve
  · intro tax tokens h
    unfold role_output
    rw [extract_roles_of_direct tax tokens h]
    have hne : sortStrs (direct_matches tax tokens).dedup ≠ [] := by
      rw [Ne, sortStrs_eq_nil_iff, List.dedup_eq_nil]
      exact h
    cases hs : sortStrs (direct_matches tax tokens).dedup with
    | nil => exact absurd hs hne
    | cons x xs => rfl
  · decide

/-- Witness for c8_role_direct_match: a vetoed role is absent from the
survivors of a concrete title. -/
theorem c8_role_direct_match_witness :
    "Data Analyst" ∉ direct_matches exTax ["data", "analyst", "intern"]
    ∧ role_output exTax exTokens = "Data Engineer | Data Scientist" := by
  have h := c8_role_direct_match
  refine ⟨h.2.1 exTax ["data", "analyst", "intern"] "Data Analyst"
      ["analyst"] ["intern"] (by decide) ?_ (by decide), h.2.2.2⟩
  intro terms2 excl2 hmem
  simp only [exTax, List.mem_cons, List.not_mem_nil, or_false, Prod.mk.injEq] at hmem
  rcases hmem with ⟨h1, -⟩ | ⟨h1, -⟩ | ⟨-, h2, h3⟩
  · exact absurd h1 (by decide)
  · exact absurd h1 (by decide)
  · exact ⟨h2, h3⟩

end Role

namespace Mapper

/-- C9 (code bug): mapping a source column as the boolean remote flag
exports remote_option = __NA__ for every row, although the intended
Remote/Onsite classification is computed (second conjunct): the
computed column is discarded because flag_vals is reset to None right
before the write guard. -/
theorem c9_remote_flag_dead_code :
    export_remote_option [some "true", some "false", some "maybe"] =
      ["__NA__", "__NA__", "__NA__"]
    ∧ [some "true", some "false", some "maybe"].map classify_wfh =
      ["Remote", "Onsite", "__NA__"]
    ∧ export_remote_option [some "true"] ≠ ["Remote"] := by
  refine ⟨by decide, by decide, by decide⟩

end Mapper
